import Mathlib

/-!
Shallow embedding of the A2A client in `src/a2a-client.ts`.

The embedding mirrors the TypeScript source at the level of its own type
annotations: `Task`, `JsonRpcResponse` and the session state become Lean
structures, message text becomes `List Char` (so that `slice`, `length`
and prefix reasoning are explicit), and the two external boundaries are
modelled as parameters:

* the HTTP exchange: each operation receives the `HttpResponse` that the
  single `fetch` of that operation observed (status, the body parsed as
  JSON for the `response.json()` calls, and the raw byte-chunk sequence
  for `response.body`);
* `JSON.parse` on SSE data-line payloads: a function
  `parse : List Char → Option JsonRpcResponse`, `none` modelling a parse
  failure (the `catch {}` branches in the source).

Every loop of the source (chunk reassembly, line scanning, frame
handling) is translated structurally; `console.log`/`process.stdout`
writes are the only omitted effects.
-/

namespace A2A

/-- A JSON value, used for payloads the client treats as opaque parsed
JSON: the body of an HTTP 402 response (`await response.json()` in the
402 branches). -/
inductive Json where
  | null : Json
  | bool (b : Bool) : Json
  | num (n : Int) : Json
  | str (s : String) : Json
  | arr (elems : List Json) : Json
  | obj (fields : List (String × Json)) : Json

/-- `Task.status` enumeration from the `Task` interface. -/
inductive TaskStatus where
  | submitted | working | inputRequired | completed | failed | canceled
deriving DecidableEq

/-- Message role, `'user' | 'agent'`. -/
inductive Role where
  | user | agent
deriving DecidableEq

/-- One content part `{ type: 'text'; text: string }`; the `type` tag is
always `'text'` in the source interface, so only the text is carried. -/
structure Part where
  text : List Char
deriving DecidableEq

/-- One entry of `Task.messages`. -/
structure Message where
  role : Role
  parts : List Part
deriving DecidableEq

/-- One entry of `Task.artifacts`. -/
structure Artifact where
  name : String
  parts : List Part
deriving DecidableEq

/-- The `Task` interface: unit of conversational state returned by the
server. -/
structure Task where
  id : String
  contextId : String
  status : TaskStatus
  messages : List Message
  artifacts : List Artifact
deriving DecidableEq

/-- The `error` member of a JSON-RPC response. -/
structure RpcErr where
  code : Int
  message : String
deriving DecidableEq

/-- The `JsonRpcResponse` interface (`result?: Task; error?: ...`). -/
structure JsonRpcResponse where
  result : Option Task
  error : Option RpcErr
deriving DecidableEq

/-- Mutable state of an `A2AClient` instance: `currentContextId` and the
monotonic `requestId` counter. -/
structure Session where
  currentContextId : Option String
  requestId : Nat
deriving DecidableEq

/-- The `options` argument of `A2AClient.send`. -/
structure SendOptions where
  contextId : Option String
  streaming : Bool
deriving DecidableEq

/-- Every way an operation of the client can fail (what it `throw`s):
`PaymentRequiredError` with the parsed 402 body, a JSON syntax error
from `response.json()`, `RPC Error: ...`, the `TypeError` raised by
reading `contextId` off `result.result!` when `result` is absent,
`No response body`, `No task received`, and
`No active conversation. Call send() first.`. -/
inductive ClientError where
  | paymentRequired (info : Json)
  | bodyNotJson
  | rpcError (message : String)
  | typeErrorUndefined
  | noResponseBody
  | noTaskReceived
  | noActiveConversation

/-- The observed result of the one `fetch` POST an operation performs:
HTTP status, the body as parsed JSON (`none` when `response.json()`
would throw), the same body under the source's `JsonRpcResponse` type
annotation, and `response.body` as a sequence of decoded text chunks
(`none` models a missing body, i.e. no reader). -/
structure HttpResponse where
  status : Nat
  jsonBody : Option Json
  rpcBody : Option JsonRpcResponse
  bodyChunks : Option (List (List Char))

/-- `params.configuration` of the outgoing envelope. -/
structure Configuration where
  contextId : Option String
  streaming : Bool
deriving DecidableEq

/-- The JSON-RPC request envelope built by `send` / `stream`. -/
structure Payload where
  method : String
  message : Message
  configuration : Configuration
  id : Nat
deriving DecidableEq

/-- Result of a `send` call: the envelope it posted, the value returned
or error thrown, and the client state after the call. -/
structure SendOutcome where
  payload : Payload
  outcome : Except ClientError Task
  session : Session

/-- Result of draining the `stream` generator: envelope, error thrown if
any, final client state, and the yielded text increments in order. -/
structure StreamOutcome where
  payload : Payload
  outcome : Except ClientError Unit
  session : Session
  yields : List (List Char)

/-- Loop state of `stream()`: the client's `currentContextId` (mutated
per frame) and the local `lastText`. -/
structure StreamSt where
  currentContextId : Option String
  lastText : List Char
deriving DecidableEq

/-- JavaScript `buffer.split('\n')`: the resulting array is never empty;
an input without newlines yields one element. -/
def jsSplitNl : List Char → List (List Char)
  | [] => [[]]
  | c :: cs =>
    if c = '\n' then [] :: jsSplitNl cs
    else
      match jsSplitNl cs with
      | [] => [[c]]
      | l :: ls => (c :: l) :: ls

/-- Splitting as a pair: the fully newline-terminated lines, and the
trailing fragment after the last newline. `jsSplitNl cs` is
`(splitNl cs).1 ++ [(splitNl cs).2]` (proved below); the loop emits the
first component and keeps the second as its buffer. -/
def splitNl : List Char → List (List Char) × List Char
  | [] => ([], [])
  | c :: cs =>
    if c = '\n' then
      ([] :: (splitNl cs).1, (splitNl cs).2)
    else
      match splitNl cs with
      | ([], fr) => ([], c :: fr)
      | (l :: ls, fr) => ((c :: l) :: ls, fr)

/-- `line.startsWith('data: ')` followed by `line.slice(6)`: the SSE
payload of a line, when the line is a data line. -/
def dataOf (line : List Char) : Option (List Char) :=
  if line.take 6 = "data: ".toList then some (line.drop 6) else none

/-- The per-line body shared by both streaming loops, up to the point of
accessing `parsed.result`: skip non-data lines, skip the `[DONE]`
sentinel, skip unparseable payloads, and otherwise give the `result`
Task of the decoded frame. -/
def lineResult (parse : List Char → Option JsonRpcResponse)
    (line : List Char) : Option Task :=
  match dataOf line with
  | none => none
  | some d =>
    if d = "[DONE]".toList then none
    else
      match parse d with
      | none => none
      | some parsed => parsed.result

/-- One line of `handleStreaming`'s inner `for` loop acting on
`lastTask`: a decoded frame carrying a `result` replaces `lastTask`
(the `process.stdout` echo of the agent message is an omitted effect;
note the source assigns `lastTask` before touching `messages`, so a
malformed `messages` shape caught by the surrounding `try` still leaves
`lastTask` updated). -/
def hsLine (parse : List Char → Option JsonRpcResponse)
    (lastTask : Option Task) (line : List Char) : Option Task :=
  match dataOf line with
  | none => lastTask
  | some d =>
    if d = "[DONE]".toList then lastTask
    else
      match parse d with
      | none => lastTask
      | some parsed =>
        match parsed.result with
        | none => lastTask
        | some t => some t

/-- The `while (true) { reader.read() ... }` loop of `handleStreaming`:
append the chunk to the buffer, split on newline, keep the final
fragment (`lines.pop() || ''`) as the new buffer, and run the line
handler over the fully terminated lines in order. -/
def hsLoop (parse : List Char → Option JsonRpcResponse) :
    Option Task → List Char → List (List Char) → Option Task
  | lastTask, _, [] => lastTask
  | lastTask, buffer, chunk :: chunks =>
    hsLoop parse
      (((jsSplitNl (buffer ++ chunk)).dropLast).foldl (hsLine parse) lastTask)
      ((jsSplitNl (buffer ++ chunk)).getLastD [])
      chunks

/-- Session with the request counter advanced by `++this.requestId`. -/
def bumpSession (sess : Session) : Session :=
  { sess with requestId := sess.requestId + 1 }

/-- `A2AClient.handleStreaming`: 402 short-circuit, reader acquisition,
the chunk loop, then `No task received` or the context-id update from
the last task. -/
def handleStreaming (parse : List Char → Option JsonRpcResponse)
    (sess : Session) (resp : HttpResponse) :
    Except ClientError Task × Session :=
  if resp.status = 402 then
    match resp.jsonBody with
    | some info => (Except.error (ClientError.paymentRequired info), sess)
    | none => (Except.error ClientError.bodyNotJson, sess)
  else
    match resp.bodyChunks with
    | none => (Except.error ClientError.noResponseBody, sess)
    | some chunks =>
      match hsLoop parse none [] chunks with
      | none => (Except.error ClientError.noTaskReceived, sess)
      | some task =>
        (Except.ok task, { sess with currentContextId := some task.contextId })

/-- The envelope `send` builds: effective context id is
`options?.contextId || this.currentContextId` (JavaScript `||`, so an
empty-string option falls back), and the configuration spread
`...(contextId && { contextId })` omits a falsy context id. -/
def buildPayload (sess : Session) (text : List Char) (opts : SendOptions) :
    Payload :=
  let contextId : Option String :=
    match opts.contextId with
    | some s => if s = "" then sess.currentContextId else some s
    | none => sess.currentContextId
  { method := "message/send"
    message := { role := Role.user, parts := [{ text := text }] }
    configuration :=
      { contextId :=
          match contextId with
          | some s => if s = "" then none else some s
          | none => none
        streaming := opts.streaming }
    id := sess.requestId + 1 }

/-- `A2AClient.send`: build the envelope (advancing `requestId`),
dispatch to `handleStreaming` when streaming, otherwise check 402, parse
the body as a `JsonRpcResponse`, surface `error` as `RPC Error`, read
`result.result!` (a missing `result` is the `TypeError` of the `!`
cast), store the returned context id and return the task. -/
def send (parse : List Char → Option JsonRpcResponse) (sess : Session)
    (text : List Char) (opts : SendOptions) (resp : HttpResponse) :
    SendOutcome :=
  if opts.streaming then
    { payload := buildPayload sess text opts
      outcome := (handleStreaming parse (bumpSession sess) resp).1
      session := (handleStreaming parse (bumpSession sess) resp).2 }
  else if resp.status = 402 then
    match resp.jsonBody with
    | some info =>
      { payload := buildPayload sess text opts
        outcome := Except.error (ClientError.paymentRequired info)
        session := bumpSession sess }
    | none =>
      { payload := buildPayload sess text opts
        outcome := Except.error ClientError.bodyNotJson
        session := bumpSession sess }
  else
    match resp.rpcBody with
    | none =>
      { payload := buildPayload sess text opts
        outcome := Except.error ClientError.bodyNotJson
        session := bumpSession sess }
    | some result =>
      match result.error with
      | some e =>
        { payload := buildPayload sess text opts
          outcome := Except.error (ClientError.rpcError e.message)
          session := bumpSession sess }
      | none =>
        match result.result with
        | none =>
          { payload := buildPayload sess text opts
            outcome := Except.error ClientError.typeErrorUndefined
            session := bumpSession sess }
        | some task =>
          { payload := buildPayload sess text opts
            outcome := Except.ok task
            session :=
              { bumpSession sess with currentContextId := some task.contextId } }

/-- Body of the `if (parsed.result)` branch in `stream()`: store the
frame's context id first, then locate the agent message; yield
`newText.slice(lastText.length)` exactly when the new text is strictly
longer than `lastText` (a missing first part is the `TypeError` caught
by the surrounding `try`, after the context id was already stored). -/
def sFrameStep (st : StreamSt) (task : Task) : StreamSt × List (List Char) :=
  let st1 : StreamSt := { st with currentContextId := some task.contextId }
  match task.messages.find? (fun m => m.role = Role.agent) with
  | none => (st1, [])
  | some msg =>
    match msg.parts.head? with
    | none => (st1, [])
    | some p =>
      if st.lastText.length < p.text.length then
        ({ st1 with lastText := p.text }, [p.text.drop st.lastText.length])
      else (st1, [])

/-- One line of `stream()`'s inner `for` loop: data-line filter, `[DONE]`
skip, parse, then the result-frame step. -/
def sLine (parse : List Char → Option JsonRpcResponse) (st : StreamSt)
    (line : List Char) : StreamSt × List (List Char) :=
  match dataOf line with
  | none => (st, [])
  | some d =>
    if d = "[DONE]".toList then (st, [])
    else
      match parse d with
      | none => (st, [])
      | some parsed =>
        match parsed.result with
        | none => (st, [])
        | some task => sFrameStep st task

/-- `stream()`'s `for (const line of lines)` over a list of lines,
collecting yields in order. -/
def sLinesFold (parse : List Char → Option JsonRpcResponse) :
    StreamSt → List (List Char) → StreamSt × List (List Char)
  | st, [] => (st, [])
  | st, l :: ls =>
    ((sLinesFold parse (sLine parse st l).1 ls).1,
      (sLine parse st l).2 ++ (sLinesFold parse (sLine parse st l).1 ls).2)

/-- `stream()`'s `while (true) { reader.read() ... }` loop: same
buffer/split/pop reassembly as `handleStreaming`, threading the stream
state and collecting yields. -/
def sLoop (parse : List Char → Option JsonRpcResponse) :
    StreamSt → List Char → List (List Char) → StreamSt × List (List Char)
  | st, _, [] => (st, [])
  | st, buffer, chunk :: chunks =>
    ((sLoop parse
        (sLinesFold parse st ((jsSplitNl (buffer ++ chunk)).dropLast)).1
        ((jsSplitNl (buffer ++ chunk)).getLastD []) chunks).1,
      (sLinesFold parse st ((jsSplitNl (buffer ++ chunk)).dropLast)).2 ++
      (sLoop parse
        (sLinesFold parse st ((jsSplitNl (buffer ++ chunk)).dropLast)).1
        ((jsSplitNl (buffer ++ chunk)).getLastD []) chunks).2)

/-- The envelope `stream()` builds: unlike `send`, the configuration
carries `contextId: this.currentContextId` unconditionally and
`streaming: true`. -/
def streamPayload (sess : Session) (text : List Char) : Payload :=
  { method := "message/send"
    message := { role := Role.user, parts := [{ text := text }] }
    configuration := { contextId := sess.currentContextId, streaming := true }
    id := sess.requestId + 1 }

/-- `A2AClient.stream` drained to completion: envelope (advancing
`requestId`), 402 short-circuit, reader acquisition, then the chunk
loop; the session's context id afterwards is whatever the loop state
holds (it starts from the session's current value and is overwritten on
each result frame). -/
def streamRun (parse : List Char → Option JsonRpcResponse) (sess : Session)
    (text : List Char) (resp : HttpResponse) : StreamOutcome :=
  if resp.status = 402 then
    match resp.jsonBody with
    | some info =>
      { payload := streamPayload sess text
        outcome := Except.error (ClientError.paymentRequired info)
        session := bumpSession sess
        yields := [] }
    | none =>
      { payload := streamPayload sess text
        outcome := Except.error ClientError.bodyNotJson
        session := bumpSession sess
        yields := [] }
  else
    match resp.bodyChunks with
    | none =>
      { payload := streamPayload sess text
        outcome := Except.error ClientError.noResponseBody
        session := bumpSession sess
        yields := [] }
    | some chunks =>
      { payload := streamPayload sess text
        outcome := Except.ok ()
        session :=
          { bumpSession sess with
              currentContextId :=
                (sLoop parse
                  { currentContextId := sess.currentContextId, lastText := [] }
                  [] chunks).1.currentContextId }
        yields :=
          (sLoop parse
            { currentContextId := sess.currentContextId, lastText := [] }
            [] chunks).2 }

/-- `A2AClient.continue`: `if (!this.currentContextId) throw ...` (the
JavaScript truthiness test, so an empty-string context id also throws),
else `send(text, { contextId: this.currentContextId, streaming })`. -/
def continueConv (parse : List Char → Option JsonRpcResponse)
    (sess : Session) (text : List Char) (streaming : Bool)
    (resp : HttpResponse) : SendOutcome :=
  match sess.currentContextId with
  | none =>
    { payload := buildPayload sess text { contextId := none, streaming := streaming }
      outcome := Except.error ClientError.noActiveConversation
      session := sess }
  | some c =>
    if c = "" then
      { payload := buildPayload sess text { contextId := some c, streaming := streaming }
        outcome := Except.error ClientError.noActiveConversation
        session := sess }
    else send parse sess text { contextId := some c, streaming := streaming } resp

/-- `stream()`'s per-frame handling lifted to the sequence of decoded
result frames (the lines whose `lineResult` is a task), threading the
stream state and collecting yields. -/
def sFramesFold : StreamSt → List Task → StreamSt × List (List Char)
  | st, [] => (st, [])
  | st, t :: ts =>
    ((sFramesFold (sFrameStep st t).1 ts).1,
      (sFrameStep st t).2 ++ (sFramesFold (sFrameStep st t).1 ts).2)

/-- The reassembly loop in isolation (the Stream Reader of the spec):
the ordered sequence of fully newline-terminated lines the two
streaming loops iterate over, for a given chunking of the byte
stream. -/
def feedAll : List Char → List (List Char) → List (List Char)
  | _, [] => []
  | buffer, chunk :: chunks =>
    (jsSplitNl (buffer ++ chunk)).dropLast ++
      feedAll ((jsSplitNl (buffer ++ chunk)).getLastD []) chunks

/-- The agent-message text of a task as `stream()` reads it:
`messages.find(m => m.role === 'agent').parts[0].text`. -/
def agentText (t : Task) : Option (List Char) :=
  match t.messages.find? (fun m => m.role = Role.agent) with
  | none => none
  | some msg =>
    match msg.parts.head? with
    | none => none
    | some p => some p.text

/-- The yield discipline of `stream()` on the sequence of frame texts:
yield `tx.drop last.length` when the new text is strictly longer than
the longest text seen, else nothing. -/
def textYields : List Char → List (List Char) → List (List Char)
  | _, [] => []
  | last, tx :: txs =>
    if last.length < tx.length then
      tx.drop last.length :: textYields tx txs
    else textYields last txs

/-- The evolution of `lastText` under the same discipline. -/
def textLast : List Char → List (List Char) → List Char
  | last, [] => last
  | last, tx :: txs =>
    if last.length < tx.length then textLast tx txs else textLast last txs

/-! Concrete fixtures used to instantiate the theorems on executable
inputs: a few tasks, a `JSON.parse` oracle mapping four one-character
payloads to frames, and some concrete responses. -/

/-- A first partial task, agent text `"Hi"`. -/
def task1 : Task :=
  ⟨"t1", "c1", TaskStatus.working, [⟨Role.agent, [⟨"Hi".toList⟩]⟩], []⟩

/-- A final task, agent text `"Hi there"`. -/
def task2 : Task :=
  ⟨"t2", "c2", TaskStatus.completed, [⟨Role.agent, [⟨"Hi there".toList⟩]⟩], []⟩

/-- A task whose agent text `"Hello"` is unrelated to `task2`'s. -/
def taskHello : Task :=
  ⟨"t3", "c3", TaskStatus.working, [⟨Role.agent, [⟨"Hello".toList⟩]⟩], []⟩

/-- A task whose agent text `"Goodbye"` does not extend `"Hello"`. -/
def taskBye : Task :=
  ⟨"t4", "c4", TaskStatus.completed, [⟨Role.agent, [⟨"Goodbye".toList⟩]⟩], []⟩

/-- A concrete `JSON.parse` oracle for SSE payloads. -/
def demoParse : List Char → Option JsonRpcResponse := fun d =>
  if d = "1".toList then some ⟨some task1, none⟩
  else if d = "2".toList then some ⟨some task2, none⟩
  else if d = "h".toList then some ⟨some taskHello, none⟩
  else if d = "g".toList then some ⟨some taskBye, none⟩
  else none

/-- The same logical SSE body split into one-character chunks. -/
def chunksFine : List (List Char) :=
  "data: 1\ndata: 2\nxy".toList.map (fun c => [c])

/-- The same logical SSE body as a single whole-body chunk. -/
def chunksWhole : List (List Char) := ["data: 1\ndata: 2\nxy".toList]

/-- Two chunks whose boundary falls inside the second data line. -/
def chunksSplitMid : List (List Char) :=
  ["data: 1\nda".toList, "ta: 2\n".toList]

/-- One chunk with two frames whose texts are not prefix-related. -/
def chunksHG : List (List Char) := ["data: h\ndata: g\n".toList]

/-- A stream containing only the `[DONE]` sentinel. -/
def chunksDoneOnly : List (List Char) := ["data: [DONE]\n".toList]

/-- A `[DONE]` sentinel followed by a further chunk with a frame. -/
def chunksDoneThen : List (List Char) :=
  ["data: [DONE]\n".toList, "data: 1\n".toList]

/-- The payment challenge body of the spec's 402 scenario. -/
def payJson : Json := Json.obj [("amount", Json.str "0.01")]

/-- A 402 response: its JSON body is the payment challenge, and it even
carries a well-formed JSON-RPC body and SSE chunks, which must be
ignored. -/
def resp402 : HttpResponse := ⟨402, some payJson, some ⟨some task1, none⟩, some chunksHG⟩

/-- A 500 response whose body is a well-formed JSON-RPC result. -/
def resp500 : HttpResponse := ⟨500, some Json.null, some ⟨some task1, none⟩, none⟩

/-- A 200 streaming response whose chunk boundary splits a line. -/
def respMid : HttpResponse := ⟨200, none, none, some chunksSplitMid⟩

/-- A 200 streaming response with non-prefix-related frame texts. -/
def respHG : HttpResponse := ⟨200, none, none, some chunksHG⟩

/-- A 200 streaming response carrying only `[DONE]`. -/
def respDoneOnly : HttpResponse := ⟨200, none, none, some chunksDoneOnly⟩

/-- A 200 streaming response with a frame after `[DONE]`. -/
def respDoneThen : HttpResponse := ⟨200, none, none, some chunksDoneThen⟩

/-- A 200 unary response carrying a result task. -/
def respOkUnary : HttpResponse := ⟨200, none, some ⟨some task2, none⟩, none⟩

/-!  Lemmas: the split/reassembly layer. -/

/-- JavaScript `split('\n')` is the terminated lines followed by the
trailing fragment. -/
theorem jsSplitNl_eq (cs : List Char) :
    jsSplitNl cs = (splitNl cs).1 ++ [(splitNl cs).2] := by
  induction cs with
  | nil => rfl
  | cons c cs ih =>
    by_cases hc : c = '\n'
    · simp [jsSplitNl, splitNl, hc, ih]
    · rcases h : splitNl cs with ⟨s1, s2⟩
      cases s1 with
      | nil => simp [jsSplitNl, splitNl, hc, ih, h]
      | cons l ls => simp [jsSplitNl, splitNl, hc, ih, h]

/-- The trailing fragment contains no newline. -/
theorem splitNl_frag_no_nl (cs : List Char) : '\n' ∉ (splitNl cs).2 := by
  induction cs with
  | nil => simp [splitNl]
  | cons c cs ih =>
    by_cases hc : c = '\n'
    · simpa [splitNl, hc] using ih
    · rcases h : splitNl cs with ⟨s1, s2⟩
      rw [h] at ih
      cases s1 with
      | nil =>
        simp only [splitNl, hc, if_false, h]
        simp only [List.mem_cons, not_or]
        exact ⟨fun e => hc e.symm, ih⟩
      | cons l ls => simpa [splitNl, hc, h] using ih

/-- A newline-free text splits into no lines and itself as fragment. -/
theorem splitNl_of_no_nl (cs : List Char) (h : '\n' ∉ cs) :
    splitNl cs = ([], cs) := by
  induction cs with
  | nil => rfl
  | cons c cs ih =>
    rw [List.mem_cons, not_or] at h
    obtain ⟨h1, h2⟩ := h
    have hc : ¬ c = '\n' := fun e => h1 e.symm
    simp [splitNl, hc, ih h2]

/-- Splitting a concatenation: the terminated lines of `a`, then the
split of the trailing fragment of `a` glued onto `b`. -/
theorem splitNl_append (a b : List Char) :
    splitNl (a ++ b) =
      ((splitNl a).1 ++ (splitNl ((splitNl a).2 ++ b)).1,
        (splitNl ((splitNl a).2 ++ b)).2) := by
  induction a with
  | nil => simp [splitNl]
  | cons c a ih =>
    by_cases hc : c = '\n'
    · subst hc
      simp [splitNl, ih]
    · rcases h : splitNl a with ⟨la, fa⟩
      rw [h] at ih
      cases la with
      | nil =>
        have ih' : splitNl (a ++ b) = splitNl (fa ++ b) := by
          rw [ih]; simp
        rcases hx : splitNl (fa ++ b) with ⟨xl, xf⟩
        cases xl with
        | nil => simp [splitNl, hc, h, ih', hx]
        | cons y ys => simp [splitNl, hc, h, ih', hx]
      | cons l ls =>
        rcases hx : splitNl (fa ++ b) with ⟨xl, xf⟩
        rw [hx] at ih
        simp [splitNl, hc, h, ih, hx]

/-- The reassembly loop emits exactly the terminated lines of the
concatenated stream, whatever the chunking. -/
theorem feedAll_eq (cs : List (List Char)) (buf : List Char)
    (h : '\n' ∉ buf) : feedAll buf cs = (splitNl (buf ++ cs.flatten)).1 := by
  induction cs generalizing buf with
  | nil => simp [feedAll, splitNl_of_no_nl _ h]
  | cons chunk chunks ih =>
    rw [feedAll, jsSplitNl_eq, List.dropLast_concat, List.getLastD_concat,
      ih _ (splitNl_frag_no_nl _), List.flatten_cons, ← List.append_assoc,
      splitNl_append (buf ++ chunk) chunks.flatten]

/-- The `handleStreaming` chunk loop is the line handler folded over the
terminated lines of the concatenated stream. -/
theorem hsLoop_eq (parse : List Char → Option JsonRpcResponse)
    (cs : List (List Char)) (lt : Option Task) (buf : List Char)
    (h : '\n' ∉ buf) :
    hsLoop parse lt buf cs =
      ((splitNl (buf ++ cs.flatten)).1).foldl (hsLine parse) lt := by
  induction cs generalizing buf lt with
  | nil => simp [hsLoop, splitNl_of_no_nl _ h]
  | cons chunk chunks ih =>
    rw [hsLoop, jsSplitNl_eq, List.dropLast_concat, List.getLastD_concat,
      ih _ _ (splitNl_frag_no_nl _), List.flatten_cons, ← List.append_assoc,
      splitNl_append (buf ++ chunk) chunks.flatten, List.foldl_append]

/-- Splitting the line list processed by `stream()`'s inner loop. -/
theorem sLinesFold_append (parse : List Char → Option JsonRpcResponse)
    (xs ys : List (List Char)) (st : StreamSt) :
    sLinesFold parse st (xs ++ ys) =
      ((sLinesFold parse (sLinesFold parse st xs).1 ys).1,
        (sLinesFold parse st xs).2 ++
          (sLinesFold parse (sLinesFold parse st xs).1 ys).2) := by
  induction xs generalizing st with
  | nil => simp [sLinesFold]
  | cons l ls ih => simp [sLinesFold, ih]

/-- The `stream()` chunk loop is its line loop run over the terminated
lines of the concatenated stream. -/
theorem sLoop_eq (parse : List Char → Option JsonRpcResponse)
    (cs : List (List Char)) (st : StreamSt) (buf : List Char)
    (h : '\n' ∉ buf) :
    sLoop parse st buf cs =
      sLinesFold parse st (splitNl (buf ++ cs.flatten)).1 := by
  induction cs generalizing buf st with
  | nil => simp [sLoop, splitNl_of_no_nl _ h, sLinesFold]
  | cons chunk chunks ih =>
    rw [sLoop, jsSplitNl_eq, List.dropLast_concat, List.getLastD_concat,
      ih _ _ (splitNl_frag_no_nl _), List.flatten_cons, ← List.append_assoc,
      splitNl_append (buf ++ chunk) chunks.flatten, sLinesFold_append]

/-!  Lemmas: the line/frame layer. -/

/-- The `handleStreaming` line handler keeps `lastTask` unless the line
decodes to a result frame. -/
theorem hsLine_eq (parse : List Char → Option JsonRpcResponse)
    (lt : Option Task) (l : List Char) :
    hsLine parse lt l =
      match lineResult parse l with
      | some t => some t
      | none => lt := by
  unfold hsLine lineResult
  rcases h : dataOf l with _ | d <;> simp only [h]
  by_cases hd : d = "[DONE]".toList
  · rw [if_pos hd, if_pos hd]
  · rw [if_neg hd, if_neg hd]
    rcases hp : parse d with _ | parsed <;> simp only [hp]
    rcases hr : parsed.result with _ | t <;> simp only [hr]

/-- The `stream()` line handler is the frame step on result frames and
the identity otherwise. -/
theorem sLine_eq (parse : List Char → Option JsonRpcResponse)
    (st : StreamSt) (l : List Char) :
    sLine parse st l =
      match lineResult parse l with
      | some t => sFrameStep st t
      | none => (st, []) := by
  unfold sLine lineResult
  rcases h : dataOf l with _ | d <;> simp only [h]
  by_cases hd : d = "[DONE]".toList
  · rw [if_pos hd, if_pos hd]
  · rw [if_neg hd, if_neg hd]
    rcases hp : parse d with _ | parsed <;> simp only [hp]
    rcases hr : parsed.result with _ | t <;> simp only [hr]

/-- Folding the `handleStreaming` line handler keeps the last decoded
result task, or the initial value when no line carries one. -/
theorem hsFold_eq (parse : List Char → Option JsonRpcResponse)
    (ls : List (List Char)) (lt : Option Task) :
    ls.foldl (hsLine parse) lt =
      match (ls.filterMap (lineResult parse)).getLast? with
      | some t => some t
      | none => lt := by
  induction ls generalizing lt with
  | nil => rfl
  | cons l ls ih =>
    rw [List.foldl_cons, ih, List.filterMap_cons, hsLine_eq]
    rcases h : lineResult parse l with _ | t <;> simp only [h]
    rcases hx : ls.filterMap (lineResult parse) with _ | ⟨y, ys⟩
    · simp
    · simp [List.getLast?_cons]

/-- The `stream()` line loop only acts through the decoded result
frames. -/
theorem sLinesFold_eq_frames (parse : List Char → Option JsonRpcResponse)
    (ls : List (List Char)) (st : StreamSt) :
    sLinesFold parse st ls = sFramesFold st (ls.filterMap (lineResult parse)) := by
  induction ls generalizing st with
  | nil => rfl
  | cons l ls ih =>
    rw [sLinesFold, sLine_eq, List.filterMap_cons]
    rcases h : lineResult parse l with _ | t
    · simpa using ih st
    · rw [sFramesFold]
      simp [ih]

/-- The frame step always stores the frame's context id. -/
theorem sFrameStep_ctx (st : StreamSt) (t : Task) :
    (sFrameStep st t).1.currentContextId = some t.contextId := by
  rcases h : t.messages.find? (fun m => m.role = Role.agent) with _ | msg
  · simp [sFrameStep, h]
  · rcases hp : msg.parts.head? with _ | p
    · simp [sFrameStep, h, hp]
    · by_cases hl : st.lastText.length < p.text.length <;>
        simp [sFrameStep, h, hp, hl]

/-- What the frame step yields, through `agentText`. -/
theorem sFrameStep_snd (st : StreamSt) (t : Task) :
    (sFrameStep st t).2 =
      match agentText t with
      | none => []
      | some tx =>
        if st.lastText.length < tx.length then [tx.drop st.lastText.length]
        else [] := by
  rcases h : t.messages.find? (fun m => m.role = Role.agent) with _ | msg
  · simp [sFrameStep, agentText, h]
  · rcases hp : msg.parts.head? with _ | p
    · simp [sFrameStep, agentText, h, hp]
    · by_cases hl : st.lastText.length < p.text.length <;>
        simp [sFrameStep, agentText, h, hp, hl]

/-- How the frame step advances `lastText`, through `agentText`. -/
theorem sFrameStep_lastText (st : StreamSt) (t : Task) :
    (sFrameStep st t).1.lastText =
      match agentText t with
      | none => st.lastText
      | some tx =>
        if st.lastText.length < tx.length then tx else st.lastText := by
  rcases h : t.messages.find? (fun m => m.role = Role.agent) with _ | msg
  · simp [sFrameStep, agentText, h]
  · rcases hp : msg.parts.head? with _ | p
    · simp [sFrameStep, agentText, h, hp]
    · by_cases hl : st.lastText.length < p.text.length <;>
        simp [sFrameStep, agentText, h, hp, hl]

/-- After a sequence of result frames, the stored context id is the last
frame's, or the initial one when there was no frame. -/
theorem sFramesFold_ctx (ts : List Task) (st : StreamSt) :
    (sFramesFold st ts).1.currentContextId =
      match ts.getLast? with
      | some t => some t.contextId
      | none => st.currentContextId := by
  induction ts generalizing st with
  | nil => rfl
  | cons t ts ih =>
    rw [sFramesFold]
    simp only
    rw [ih]
    rcases hx : ts with _ | ⟨y, ys⟩
    · simp [sFrameStep_ctx]
    · simp [List.getLast?_cons]

/-- Yields and `lastText` of the frame fold are a function of the frame
texts alone, following the length-based discipline. -/
theorem sFramesFold_spec (ts : List Task) (st : StreamSt) :
    (sFramesFold st ts).2 = textYields st.lastText (ts.filterMap agentText) ∧
    (sFramesFold st ts).1.lastText = textLast st.lastText (ts.filterMap agentText) := by
  induction ts generalizing st with
  | nil => exact ⟨rfl, rfl⟩
  | cons t ts ih =>
    have h2 := sFrameStep_snd st t
    have h3 := sFrameStep_lastText st t
    rw [sFramesFold]
    simp only [List.filterMap_cons]
    rcases h : agentText t with _ | tx <;> simp only [h] at h2 h3 ⊢
    · constructor
      · simp only [h2, List.nil_append, (ih _).1, h3]
      · simp only [(ih _).2, h3]
    · by_cases hl : st.lastText.length < tx.length
      · rw [if_pos hl] at h2 h3
        constructor
        · simp only [h2, (ih _).1, h3, textYields, if_pos hl, List.cons_append,
            List.nil_append]
        · simp only [(ih _).2, h3, textLast, if_pos hl]
      · rw [if_neg hl] at h2 h3
        constructor
        · simp only [h2, List.nil_append, (ih _).1, h3, textYields, if_neg hl]
        · simp only [(ih _).2, h3, textLast, if_neg hl]

/-- When each text prefix-extends the one before it, the concatenated
yields rebuild exactly the last text. -/
theorem textYields_chain (txs : List (List Char)) (last : List Char)
    (h : List.Chain' (· <+: ·) (last :: txs)) :
    last ++ (textYields last txs).flatten = txs.getLastD last := by
  induction txs generalizing last with
  | nil => simp [textYields]
  | cons tx txs ih =>
    rw [List.chain'_cons] at h
    obtain ⟨h1, h2⟩ := h
    by_cases hl : last.length < tx.length
    · rw [textYields, if_pos hl, List.flatten_cons]
      obtain ⟨t, ht⟩ := h1
      have hdrop : last ++ tx.drop last.length = tx := by
        rw [← ht, List.drop_left]
      calc last ++ (tx.drop last.length ++ (textYields tx txs).flatten)
          = (last ++ tx.drop last.length) ++ (textYields tx txs).flatten := by
            rw [List.append_assoc]
        _ = tx ++ (textYields tx txs).flatten := by rw [hdrop]
        _ = txs.getLastD tx := ih tx h2
        _ = (tx :: txs).getLastD last := (List.getLastD_cons _ _ _).symm
    · have hle : tx.length ≤ last.length := le_of_not_lt hl
      have heq : last = tx := h1.eq_of_length (le_antisymm h1.length_le hle)
      rw [textYields, if_neg hl, List.getLastD_cons, ← heq]
      exact ih last (heq ▸ h2)

/-- Extracting the plain list from a pointwise `some` image. -/
theorem filterMap_of_map_eq {α β : Type} (f : α → Option β) (l : List α)
    (l' : List β) (h : l.map f = l'.map some) : l.filterMap f = l' := by
  induction l generalizing l' with
  | nil => cases l' <;> simp_all
  | cons a l ih =>
    cases l' with
    | nil => simp_all
    | cons b l' =>
      simp only [List.map_cons, List.cons.injEq] at h
      obtain ⟨h1, h2⟩ := h
      simp [List.filterMap_cons, h1, ih _ h2]

/-- `send` can fail in many ways, but never with the illegal-sequence
error that `continue` raises. -/
theorem send_no_state_error (parse : List Char → Option JsonRpcResponse)
    (sess : Session) (text : List Char) (opts : SendOptions)
    (resp : HttpResponse) :
    (send parse sess text opts resp).outcome ≠
      Except.error ClientError.noActiveConversation := by
  unfold send handleStreaming
  repeat' split
  all_goals simp

/-- On a non-402 response with a body, `stream()` reduces to the line
loop over the reassembled lines. -/
theorem streamRun_eq (parse : List Char → Option JsonRpcResponse)
    (sess : Session) (text : List Char) (resp : HttpResponse)
    (chunks : List (List Char)) (h402 : resp.status ≠ 402)
    (hb : resp.bodyChunks = some chunks) :
    streamRun parse sess text resp =
      { payload := streamPayload sess text
        outcome := Except.ok ()
        session :=
          { bumpSession sess with
              currentContextId :=
                (sLinesFold parse
                  { currentContextId := sess.currentContextId, lastText := [] }
                  (feedAll [] chunks)).1.currentContextId }
        yields :=
          (sLinesFold parse
            { currentContextId := sess.currentContextId, lastText := [] }
            (feedAll [] chunks)).2 } := by
  unfold streamRun
  rw [if_neg h402, hb]
  dsimp only
  rw [feedAll_eq _ _ (by simp), sLoop_eq _ _ _ _ (by simp)]

/-- When `handleStreaming` returns a task, the session it leaves behind
stores that task's context id. -/
theorem handleStreaming_ok (parse : List Char → Option JsonRpcResponse)
    (sess : Session) (resp : HttpResponse) (task : Task)
    (h : (handleStreaming parse sess resp).1 = Except.ok task) :
    (handleStreaming parse sess resp).2.currentContextId = some task.contextId := by
  unfold handleStreaming at h ⊢
  by_cases h402 : resp.status = 402
  · rcases hj : resp.jsonBody with _ | j <;> simp [h402, hj] at h
  · rcases hb : resp.bodyChunks with _ | chunks
    · simp [h402, hb] at h
    · rcases hl : hsLoop parse none [] chunks with _ | t
      · simp [h402, hb, hl] at h
      · simp only [h402, if_neg, ite_false, hb, hl] at h ⊢
        simp only [Except.ok.injEq] at h
        simp [h]

/-!  The claims. -/

/-- C1: for every POST to the `/a2a` endpoint — unary send, streaming
send, and `stream()` — an HTTP 402 status makes the operation fail with
`PaymentRequiredError` carrying the parsed JSON body of the response
verbatim; the body is never parsed as a JSON-RPC response (the outcome
is the same whatever `rpcBody` holds, since `resp` is arbitrary here)
and never handed to the SSE reader (`stream()` yields nothing and the
chunks are never consumed). -/
theorem a2a_402_short_circuit (parse : List Char → Option JsonRpcResponse)
    (sess : Session) (text : List Char) (octx : Option String)
    (resp : HttpResponse) (j : Json)
    (h : resp.status = 402) (hj : resp.jsonBody = some j) :
    (send parse sess text ⟨octx, false⟩ resp).outcome
        = Except.error (ClientError.paymentRequired j)
    ∧ (send parse sess text ⟨octx, true⟩ resp).outcome
        = Except.error (ClientError.paymentRequired j)
    ∧ (streamRun parse sess text resp).outcome
        = Except.error (ClientError.paymentRequired j)
    ∧ (streamRun parse sess text resp).yields = [] := by
  refine ⟨?_, ?_, ?_, ?_⟩ <;> simp [send, handleStreaming, streamRun, h, hj]

/-- Witness for C1: a concrete 402 response whose JSON body is the
payment challenge `{amount: "0.01"}` and which even carries a
well-formed JSON-RPC body and SSE chunks; all three operations surface
the challenge and ignore the rest. -/
theorem a2a_402_short_circuit_witness :
    (send demoParse ⟨none, 0⟩ "hi".toList ⟨none, false⟩ resp402).outcome
        = Except.error (ClientError.paymentRequired payJson)
    ∧ (send demoParse ⟨none, 0⟩ "hi".toList ⟨none, true⟩ resp402).outcome
        = Except.error (ClientError.paymentRequired payJson)
    ∧ (streamRun demoParse ⟨none, 0⟩ "hi".toList resp402).outcome
        = Except.error (ClientError.paymentRequired payJson)
    ∧ (streamRun demoParse ⟨none, 0⟩ "hi".toList resp402).yields = [] :=
  a2a_402_short_circuit demoParse ⟨none, 0⟩ "hi".toList none resp402 payJson rfl rfl

/-- C2: for every byte stream and every two ways of splitting it into
chunks, the reassembly loop emits the identical ordered line sequence,
hence the identical SSE data lines, the identical decoded Tasks, and
identical behavior of both streaming loops. -/
theorem stream_reader_chunking_invariant
    (parse : List Char → Option JsonRpcResponse)
    (cs1 cs2 : List (List Char)) (lt : Option Task) (st : StreamSt)
    (h : cs1.flatten = cs2.flatten) :
    feedAll [] cs1 = feedAll [] cs2
    ∧ (feedAll [] cs1).filterMap dataOf = (feedAll [] cs2).filterMap dataOf
    ∧ (feedAll [] cs1).filterMap (lineResult parse)
        = (feedAll [] cs2).filterMap (lineResult parse)
    ∧ hsLoop parse lt [] cs1 = hsLoop parse lt [] cs2
    ∧ sLoop parse st [] cs1 = sLoop parse st [] cs2 := by
  have hf : feedAll [] cs1 = feedAll [] cs2 := by
    rw [feedAll_eq _ _ (by simp), feedAll_eq _ _ (by simp), h]
  refine ⟨hf, by rw [hf], by rw [hf], ?_, ?_⟩
  · rw [hsLoop_eq _ _ _ _ (by simp), hsLoop_eq _ _ _ _ (by simp), h]
  · rw [sLoop_eq _ _ _ _ (by simp), sLoop_eq _ _ _ _ (by simp), h]

/-- Witness for C2: the same SSE body (two data lines and an unfinished
fragment) fed as one-character chunks versus one whole-body chunk. -/
theorem stream_reader_chunking_invariant_witness :
    feedAll [] chunksFine = feedAll [] chunksWhole
    ∧ (feedAll [] chunksFine).filterMap dataOf
        = (feedAll [] chunksWhole).filterMap dataOf
    ∧ (feedAll [] chunksFine).filterMap (lineResult demoParse)
        = (feedAll [] chunksWhole).filterMap (lineResult demoParse)
    ∧ hsLoop demoParse none [] chunksFine = hsLoop demoParse none [] chunksWhole
    ∧ sLoop demoParse ⟨none, []⟩ [] chunksFine
        = sLoop demoParse ⟨none, []⟩ [] chunksWhole :=
  stream_reader_chunking_invariant demoParse chunksFine chunksWhole none
    ⟨none, []⟩ (by decide)

/-- C3: when the agent-message texts of the decoded result frames form a
prefix chain (each text extends the previous one; `texts` names them via
the pointwise-`some` hypothesis), the concatenation of everything
`stream()` yields is exactly the last frame's agent text. -/
theorem stream_increments_concat (parse : List Char → Option JsonRpcResponse)
    (sess : Session) (text : List Char) (resp : HttpResponse)
    (chunks : List (List Char)) (texts : List (List Char))
    (h402 : resp.status ≠ 402) (hb : resp.bodyChunks = some chunks)
    (htexts : ((feedAll [] chunks).filterMap (lineResult parse)).map agentText
        = texts.map some)
    (hchain : List.Chain' (· <+: ·) texts) :
    ((streamRun parse sess text resp).yields).flatten = texts.getLastD [] := by
  rw [streamRun_eq parse sess text resp chunks h402 hb]
  dsimp only
  rw [sLinesFold_eq_frames,
    (sFramesFold_spec ((feedAll [] chunks).filterMap (lineResult parse)) _).1,
    filterMap_of_map_eq _ _ _ htexts]
  have hchain0 : List.Chain' (· <+: ·) ([] :: texts) := by
    cases texts with
    | nil => simp
    | cons tx txs => exact List.chain'_cons.mpr ⟨ List.nil_prefix, hchain⟩
  simpa using textYields_chain texts [] hchain0

/-- Witness for C3: a two-chunk stream whose boundary splits the second
data line, frames with texts `"Hi"` then `"Hi there"`; the concatenated
yields equal the final text. -/
theorem stream_increments_concat_witness :
    ((streamRun demoParse ⟨none, 0⟩ "hi".toList respMid).yields).flatten
      = (["Hi".toList, "Hi there".toList] : List (List Char)).getLastD [] :=
  stream_increments_concat demoParse ⟨none, 0⟩ "hi".toList respMid chunksSplitMid
    ["Hi".toList, "Hi there".toList] (by decide) rfl (by decide)
    (List.chain'_cons.mpr ⟨by decide, List.chain'_singleton _⟩)

/-- C4 counterexample: frames with texts `"Hello"` then `"Goodbye"` —
the second is not a prefix extension of the first. The claim says the
operation yields that frame's full text `"Goodbye"`; the code instead
compares lengths only and yields `"Goodbye".slice(5) = "ye"`. -/
theorem stream_nonextension_counterexample :
    (streamRun demoParse ⟨none, 0⟩ "hi".toList respHG).yields
        = ["Hello".toList, "ye".toList]
    ∧ ("ye".toList : List Char) ≠ "Goodbye".toList := by
  exact ⟨rfl, by decide⟩

/-- C4 (amended): `stream()` never crashes on a non-extension frame, but
it does not treat it as a new message either: the yields are exactly the
length-based discipline `textYields` over the frame texts — a frame
strictly longer than the longest text seen yields only the tail of the
new text past that length (even when the texts are unrelated), and a
frame of equal or smaller length yields nothing. -/
theorem stream_yields_length_based (parse : List Char → Option JsonRpcResponse)
    (sess : Session) (text : List Char) (resp : HttpResponse)
    (chunks : List (List Char))
    (h402 : resp.status ≠ 402) (hb : resp.bodyChunks = some chunks) :
    (streamRun parse sess text resp).yields
      = textYields []
          (((feedAll [] chunks).filterMap (lineResult parse)).filterMap agentText) := by
  rw [streamRun_eq parse sess text resp chunks h402 hb]
  dsimp only
  rw [sLinesFold_eq_frames]
  exact (sFramesFold_spec _ _).1

/-- Witness for C4's amended claim at the `"Hello"`/`"Goodbye"`
stream. -/
theorem stream_yields_length_based_witness :
    (streamRun demoParse ⟨none, 0⟩ "hi".toList respHG).yields
      = textYields []
          (((feedAll [] chunksHG).filterMap (lineResult demoParse)).filterMap agentText) :=
  stream_yields_length_based demoParse ⟨none, 0⟩ "hi".toList respHG chunksHG
    (by decide) rfl

/-- C5 counterexample: a stream whose first chunk is `data: [DONE]` and
whose second chunk carries a result frame. The claim says that after
decoding `[DONE]` no further reads are issued, so the second chunk could
never be observed; but `handleStreaming` returns the task decoded from
that second chunk (and, as the second conjunct shows, the `[DONE]`
chunk alone decodes to no task at all, so the result can only come from
the read after the sentinel). -/
theorem done_sentinel_counterexample :
    (handleStreaming demoParse ⟨none, 0⟩ respDoneThen).1 = Except.ok task1
    ∧ hsLoop demoParse none [] chunksDoneOnly = none := by
  exact ⟨rfl, rfl⟩

/-- C5 (amended): a decoded `[DONE]` data line is skipped, not treated
as a terminator: in both streaming loops, processing a line sequence
with a `[DONE]` data line inserted anywhere equals processing the same
sequence without it, so the loops keep pulling and decoding data until
the transport itself signals end of stream. -/
theorem done_sentinel_skipped (parse : List Char → Option JsonRpcResponse)
    (lt : Option Task) (st : StreamSt) (ls1 ls2 : List (List Char)) :
    (ls1 ++ "data: [DONE]".toList :: ls2).foldl (hsLine parse) lt
        = (ls1 ++ ls2).foldl (hsLine parse) lt
    ∧ sLinesFold parse st (ls1 ++ "data: [DONE]".toList :: ls2)
        = sLinesFold parse st (ls1 ++ ls2) := by
  have hdone : lineResult parse ("data: [DONE]".toList) = none := rfl
  constructor
  · rw [List.foldl_append, List.foldl_append, List.foldl_cons, hsLine_eq, hdone]
  · have h2 : ∀ st0 : StreamSt,
        sLinesFold parse st0 ("data: [DONE]".toList :: ls2)
          = sLinesFold parse st0 ls2 := by
      intro st0
      rw [sLinesFold, sLine_eq, hdone]
      simp
    rw [sLinesFold_append, sLinesFold_append, h2]

/-- C6: whenever a `send` — unary or streaming — returns a task, the
session it leaves behind stores exactly that task's context id. -/
theorem send_updates_context (parse : List Char → Option JsonRpcResponse)
    (sess : Session) (text : List Char) (opts : SendOptions)
    (resp : HttpResponse) (task : Task)
    (h : (send parse sess text opts resp).outcome = Except.ok task) :
    (send parse sess text opts resp).session.currentContextId
      = some task.contextId := by
  by_cases hs : opts.streaming
  · have h' : (handleStreaming parse (bumpSession sess) resp).1 = Except.ok task := by
      simpa [send, hs] using h
    have := handleStreaming_ok parse (bumpSession sess) resp task h'
    simpa [send, hs] using this
  · by_cases h402 : resp.status = 402
    · rcases hj : resp.jsonBody with _ | j <;> simp [send, hs, h402, hj] at h
    · rcases hr : resp.rpcBody with _ | result
      · simp [send, hs, h402, hr] at h
      · rcases he : result.error with _ | e
        · rcases hres : result.result with _ | t
          · simp [send, hs, h402, hr, he, hres] at h
          · simp [send, hs, h402, hr, he, hres] at h ⊢
            simp [h]
        · simp [send, hs, h402, hr, he] at h

/-- Witness for C6: a successful unary send against a 200 response with
result `task2`; the stored context id becomes `task2`'s. -/
theorem send_updates_context_witness :
    (send demoParse ⟨none, 0⟩ "hi".toList ⟨none, false⟩ respOkUnary).session.currentContextId
      = some task2.contextId :=
  send_updates_context demoParse ⟨none, 0⟩ "hi".toList ⟨none, false⟩ respOkUnary
    task2 rfl

/-- C7 counterexample: a unary send observing HTTP 500 (non-2xx, not
402) with a well-formed JSON-RPC result body. The claim says the
operation fails at HTTP level before parsing the body; the code has no
such check: it parses the body as JSON-RPC and succeeds, returning the
task. -/
theorem send_non2xx_counterexample :
    resp500.status = 500
    ∧ (send demoParse ⟨none, 0⟩ "hi".toList ⟨none, false⟩ resp500).outcome
        = Except.ok task1 := by
  exact ⟨rfl, rfl⟩

/-- C7 (amended): for a unary send the HTTP status is irrelevant except
for the 402 check: any two statuses other than 402 give the identical
outcome, i.e. a non-2xx non-402 response is processed exactly like a
2xx one, by parsing the body as a JSON-RPC response. -/
theorem send_status_irrelevant_unless_402
    (parse : List Char → Option JsonRpcResponse) (sess : Session)
    (text : List Char) (octx : Option String) (resp : HttpResponse)
    (s1 s2 : Nat) (h1 : s1 ≠ 402) (h2 : s2 ≠ 402) :
    send parse sess text ⟨octx, false⟩ { resp with status := s1 }
      = send parse sess text ⟨octx, false⟩ { resp with status := s2 } := by
  simp [send, h1, h2]

/-- Witness for C7's amended claim: a 500 and a 200 response with the
same body give the same outcome. -/
theorem send_status_irrelevant_unless_402_witness :
    send demoParse ⟨none, 0⟩ "hi".toList ⟨none, false⟩ { resp500 with status := 500 }
      = send demoParse ⟨none, 0⟩ "hi".toList ⟨none, false⟩ { resp500 with status := 200 } :=
  send_status_irrelevant_unless_402 demoParse ⟨none, 0⟩ "hi".toList none resp500
    500 200 (by decide) (by decide)

/-- C8 counterexample: a session whose stored context id is the empty
string. It does have a stored context id (`≠ none`), yet `continue`
fails with the no-active-conversation error, because the source tests
JavaScript truthiness (`!this.currentContextId`), not presence. -/
theorem continue_empty_context_counterexample :
    ((⟨some "", 0⟩ : Session).currentContextId ≠ none)
    ∧ (continueConv demoParse ⟨some "", 0⟩ "hi".toList false respOkUnary).outcome
        = Except.error ClientError.noActiveConversation := by
  exact ⟨by simp, rfl⟩

/-- C8 (amended): `continue` fails with the no-active-conversation
error iff the stored context id is absent or the empty string
(JavaScript falsiness); with a nonempty stored context id it is exactly
a `send` with that context id and the given streaming flag, returning
its outcome. -/
theorem continue_state_error_iff (parse : List Char → Option JsonRpcResponse)
    (sess : Session) (text : List Char) (streaming : Bool)
    (resp : HttpResponse) :
    ((continueConv parse sess text streaming resp).outcome
        = Except.error ClientError.noActiveConversation
      ↔ (sess.currentContextId = none ∨ sess.currentContextId = some ""))
    ∧ (∀ c : String, sess.currentContextId = some c → c ≠ "" →
        continueConv parse sess text streaming resp
          = send parse sess text ⟨some c, streaming⟩ resp) := by
  constructor
  · constructor
    · intro h
      rcases hc : sess.currentContextId with _ | c
      · exact Or.inl rfl
      · by_cases hce : c = ""
        · exact Or.inr (by rw [hce])
        · exfalso
          have heq : continueConv parse sess text streaming resp
              = send parse sess text ⟨some c, streaming⟩ resp := by
            simp [continueConv, hc, hce]
          rw [heq] at h
          exact send_no_state_error parse sess text ⟨some c, streaming⟩ resp h
    · intro h
      rcases h with h | h <;> simp [continueConv, h]
  · intro c hc hce
    simp [continueConv, hc, hce]

/-- Witness for C8's amended claim: with stored context id `"abc"`,
`continue` is the corresponding `send`. -/
theorem continue_state_error_iff_witness :
    continueConv demoParse ⟨some "abc", 0⟩ "hi".toList false respOkUnary
      = send demoParse ⟨some "abc", 0⟩ "hi".toList ⟨some "abc", false⟩ respOkUnary :=
  (continue_state_error_iff demoParse ⟨some "abc", 0⟩ "hi".toList false
    respOkUnary).2 "abc" rfl (by decide)

/-- C9: a streaming send in which no SSE data line decodes to a frame
carrying a result task (only `[DONE]`, malformed lines, non-data lines,
or result-less frames) fails with the no-task-received error and leaves
the session's stored context id unchanged. -/
theorem streaming_no_task_error (parse : List Char → Option JsonRpcResponse)
    (sess : Session) (text : List Char) (octx : Option String)
    (resp : HttpResponse) (chunks : List (List Char))
    (h402 : resp.status ≠ 402) (hb : resp.bodyChunks = some chunks)
    (hno : (feedAll [] chunks).filterMap (lineResult parse) = []) :
    (send parse sess text ⟨octx, true⟩ resp).outcome
        = Except.error ClientError.noTaskReceived
    ∧ (send parse sess text ⟨octx, true⟩ resp).session.currentContextId
        = sess.currentContextId := by
  have hloop : hsLoop parse none [] chunks = none := by
    rw [hsLoop_eq _ _ _ _ (by simp), hsFold_eq, ← feedAll_eq _ _ (by simp), hno]
    rfl
  constructor <;> simp [send, handleStreaming, bumpSession, h402, hb, hloop]

/-- Witness for C9: a stream consisting only of `data: [DONE]`; the
send fails with the no-task error and the stored context id `"c0"` is
untouched. -/
theorem streaming_no_task_error_witness :
    (send demoParse ⟨some "c0", 3⟩ "hi".toList ⟨none, true⟩ respDoneOnly).outcome
        = Except.error ClientError.noTaskReceived
    ∧ (send demoParse ⟨some "c0", 3⟩ "hi".toList ⟨none, true⟩ respDoneOnly).session.currentContextId
        = (⟨some "c0", 3⟩ : Session).currentContextId :=
  streaming_no_task_error demoParse ⟨some "c0", 3⟩ "hi".toList none respDoneOnly
    chunksDoneOnly (by decide) rfl rfl

/-- C10: `stream()` overwrites the stored context id on every decoded
result frame, not only at completion: after any prefix of the line
sequence, the loop state's context id is the context id of the last
result frame decoded so far (or the initial one when none was); and the
session `stream()` leaves behind stores the context id of the last
result frame of the whole exchange. -/
theorem stream_context_overwrite_per_frame
    (parse : List Char → Option JsonRpcResponse) (sess : Session)
    (text : List Char) (resp : HttpResponse) (chunks : List (List Char))
    (st : StreamSt) (lines : List (List Char)) (k : Nat)
    (h402 : resp.status ≠ 402) (hb : resp.bodyChunks = some chunks) :
    ((sLinesFold parse st (lines.take k)).1.currentContextId
        = match ((lines.take k).filterMap (lineResult parse)).getLast? with
          | some t => some t.contextId
          | none => st.currentContextId)
    ∧ ((streamRun parse sess text resp).session.currentContextId
        = match ((feedAll [] chunks).filterMap (lineResult parse)).getLast? with
          | some t => some t.contextId
          | none => sess.currentContextId) := by
  constructor
  · rw [sLinesFold_eq_frames, sFramesFold_ctx]
  · have hctx := sFramesFold_ctx
      ((feedAll [] chunks).filterMap (lineResult parse))
      { currentContextId := sess.currentContextId, lastText := [] }
    rw [streamRun_eq parse sess text resp chunks h402 hb]
    dsimp only
    rw [sLinesFold_eq_frames]
    exact hctx

/-- Witness for C10: after one line of the two-frame stream, the loop
state already stores the first frame's context id. -/
theorem stream_context_overwrite_per_frame_witness :
    (sLinesFold demoParse ⟨some "c0", []⟩ ((feedAll [] chunksSplitMid).take 1)).1.currentContextId
      = match (((feedAll [] chunksSplitMid).take 1).filterMap (lineResult demoParse)).getLast? with
        | some t => some t.contextId
        | none => some "c0" :=
  (stream_context_overwrite_per_frame demoParse ⟨none, 0⟩ "hi".toList respMid
    chunksSplitMid ⟨some "c0", []⟩ (feedAll [] chunksSplitMid) 1 (by decide) rfl).1

end A2A
